import Mathlib

/-!
Verification development for the 13F ingestion and CUSIP remediation pipeline
(`processor.py`).  The Python source is shallowly embedded: pure helpers become
Lean functions, raised exceptions become `Except.error`, and the per-row effect
of the SQL batch updates becomes explicit functions on row records.
-/

/-! ## Checksum (source: `compute_check_digit` inside `clean_cusips`) -/

/-- The candidate characters `string.ascii_uppercase + string.digits`, in the
iteration order used by `find_valid_cusips`. -/
def cusipChars : List Char := "ABCDEFGHIJKLMNOPQRSTUVWXYZ0123456789".data

/-- Source: `int(c) if c.isdigit() else (ord(c) - ord("A") + 10)`. -/
def cusipCharValue (c : Char) : Nat :=
  if c.isDigit then c.toNat - '0'.toNat else c.toNat - 'A'.toNat + 10

/-- One step of the source's accumulation loop: double the value at an odd
0-based index, then add `sum(divmod(value, 10))`, i.e. quotient plus
remainder by 10. -/
def digitPairSum (i v : Nat) : Nat :=
  let w := if i % 2 == 1 then v * 2 else v
  w / 10 + w % 10

/-- The source's `for i, value in enumerate(values)` accumulation, with the
running index made explicit. -/
def totalFrom (i : Nat) : List Nat → Nat
  | [] => 0
  | v :: rest => digitPairSum i v + totalFrom (i + 1) rest

/-- Source: `compute_check_digit`.  Raising `ValueError` is modelled as
`Except.error`; the returned value is `str((10 - (total % 10)) % 10)`. -/
def compute_check_digit (cusip : String) : Except String String :=
  if cusip.length != 8 || !(cusip.data.all Char.isAlphanum) then
    .error "CUSIP must be length 8 and alphanumeric characters"
  else
    .ok (toString ((10 - (totalFrom 0 (cusip.data.map cusipCharValue)) % 10) % 10))

/-! ## Spec-side checksum, stated from the spec's words for the refinement
claim C1: digits map to their numeric value, letters to 10 plus the letter's
alphabet position (A = 0); the value at every odd 0-based index is doubled;
the decimal digits of every possibly-doubled value are summed individually;
the check digit is `(10 - (total mod 10)) mod 10`. -/

/-- Sum of the decimal digits of `n`. -/
def sumDigits (n : Nat) : Nat :=
  if h : n < 10 then n else n % 10 + sumDigits (n / 10)
  decreasing_by exact Nat.div_lt_self (by omega) (by omega)

/-- Spec-side character value: a digit's numeric value, or 10 plus the
letter's alphabet position with A = 0. -/
def specCharValue (c : Char) : Nat :=
  if c.isDigit then c.toNat - '0'.toNat else 10 + (c.toNat - 'A'.toNat)

/-- Spec-side total: the value at every odd 0-based index is doubled, and the
decimal digit sums of all possibly-doubled values are added up. -/
def specTotalFrom (i : Nat) : List Nat → Nat
  | [] => 0
  | v :: rest => sumDigits (if i % 2 == 1 then 2 * v else v) + specTotalFrom (i + 1) rest

/-- Spec-side check digit of an 8-character stem, as a one-character string. -/
def check_digit_spec (s : String) : String :=
  toString ((10 - (specTotalFrom 0 (s.data.map specCharValue)) % 10) % 10)

/-! ## Short-CUSIP repair (source: `find_valid_cusips` and the staged
pipeline in `clean_cusips`) -/

/-- The source's `for char in string.ascii_uppercase + string.digits` loop for
7-character codes: try `char` as a prefix, compute the check digit, and return
the 9-character candidate on a reference-set hit.  An exception from
`compute_check_digit` propagates out of the loop. -/
def try_prefixes : List Char → String → List String → Except String (Option String)
  | [], _, _ => .ok none
  | c :: rest, cusip, ftd =>
    match compute_check_digit (String.singleton c ++ cusip) with
    | .error e => .error e
    | .ok cd =>
      if (String.singleton c ++ cusip) ++ cd ∈ ftd then
        .ok (some ((String.singleton c ++ cusip) ++ cd))
      else try_prefixes rest cusip ftd

/-- Source: `find_valid_cusips`.  For an 8-character code, append the check
digit and test membership.  For a 7-character code, run the prefix loop; in
the source the right-padding block sits OUTSIDE the `for` loop (it is
indented at the loop's own level), so after a loop that found nothing it runs
exactly once with the loop variable still bound to its last value, the
character `'9'`. -/
def find_valid_cusips (cusip : String) (ftd : List String) : Except String (Option String) :=
  if cusip.length = 8 then
    match compute_check_digit cusip with
    | .error e => .error e
    | .ok cd => .ok (if cusip ++ cd ∈ ftd then some (cusip ++ cd) else none)
  else if cusip.length = 7 then
    match try_prefixes cusipChars cusip ftd with
    | .error e => .error e
    | .ok (some full) => .ok (some full)
    | .ok none =>
      match compute_check_digit (cusip.push '9') with
      | .error e => .error e
      | .ok cd => .ok (if cusip.push '9' ++ cd ∈ ftd then some (cusip.push '9' ++ cd) else none)
  else .ok none

/-- Spec-side suffix loop for the refinement comparison in C3: each candidate
character in turn is appended, the check digit computed, and the candidate
accepted on a reference-set hit. -/
def try_suffixes : List Char → String → List String → Except String (Option String)
  | [], _, _ => .ok none
  | c :: rest, cusip, ftd =>
    match compute_check_digit (cusip.push c) with
    | .error e => .error e
    | .ok cd =>
      if cusip.push c ++ cd ∈ ftd then .ok (some (cusip.push c ++ cd))
      else try_suffixes rest cusip ftd

/-- The spec's wording of checksum-assisted repair: for a 7-character code,
if no prefix works, try the SAME 36 characters as suffixes in the same way
(the source instead right-pads only once, with the leaked loop value). -/
def find_valid_cusips_spec (cusip : String) (ftd : List String) : Except String (Option String) :=
  if cusip.length = 8 then
    match compute_check_digit cusip with
    | .error e => .error e
    | .ok cd => .ok (if cusip ++ cd ∈ ftd then some (cusip ++ cd) else none)
  else if cusip.length = 7 then
    match try_prefixes cusipChars cusip ftd with
    | .error e => .error e
    | .ok (some full) => .ok (some full)
    | .ok none => try_suffixes cusipChars cusip ftd
  else .ok none

/-- Python / polars `str.zfill`: left-pad with `'0'` to the requested width,
except that a leading sign character keeps its position and the zeros are
inserted after it. -/
def zfill (width : Nat) (s : String) : String :=
  match s.data with
  | [] => String.mk (List.replicate width '0')
  | c :: rest =>
    if c = '+' || c = '-' then
      String.mk (c :: (List.replicate (width - s.length) '0' ++ rest))
    else String.mk (List.replicate (width - s.length) '0' ++ c :: rest)

/-- polars `str.pad_end(width, "0")`: right-pad with `'0'` to the width. -/
def pad_end (width : Nat) (s : String) : String :=
  s ++ String.mk (List.replicate (width - s.length) '0')

/-- The per-code effect of the staged short-CUSIP pipeline in `clean_cusips`:
1. left-zero-pad to 9 and accept on reference-set membership;
2. else right-zero-pad to 9 and accept on membership;
3. else checksum-assisted repair via `find_valid_cusips`;
4. else left-zero-pad to 9 unconditionally.
An exception raised by `find_valid_cusips` aborts the stage. -/
def fix_short (cusip : String) (ftd : List String) : Except String String :=
  if zfill 9 cusip ∈ ftd then .ok (zfill 9 cusip)
  else if pad_end 9 cusip ∈ ftd then .ok (pad_end 9 cusip)
  else
    match find_valid_cusips cusip ftd with
    | .error e => .error e
    | .ok (some f) => .ok f
    | .ok none => .ok (zfill 9 cusip)

/-! ## Holdings rows and the column-swap stage (source: the two UPDATE
statements at the top of `clean_cusips`) -/

/-- One (normalized) holdings row, restricted to the three text columns the
remediation pass reads and writes. -/
structure Holding where
  cusip : String
  titleofclass : String
  nameofissuer : String
deriving DecidableEq

/-- First UPDATE: rows whose `titleofclass` is in the reference set get
`cusip` and `titleofclass` exchanged (SQL `SET` reads the old row values). -/
def swap_titleofclass (r : Holding) (ftd : List String) : Holding :=
  if r.titleofclass ∈ ftd then
    { r with cusip := r.titleofclass, titleofclass := r.cusip }
  else r

/-- Second UPDATE: rows whose `nameofissuer` is in the reference set get
`cusip := nameofissuer`, `nameofissuer := titleofclass`,
`titleofclass := cusip`, all reading the values the row has when this
statement runs. -/
def rotate_nameofissuer (r : Holding) (ftd : List String) : Holding :=
  if r.nameofissuer ∈ ftd then
    { cusip := r.nameofissuer, nameofissuer := r.titleofclass, titleofclass := r.cusip }
  else r

/-- The column-swap stage: the `titleofclass` UPDATE runs first, then the
`nameofissuer` UPDATE over the already-updated rows. -/
def column_swap_stage (r : Holding) (ftd : List String) : Holding :=
  rotate_nameofissuer (swap_titleofclass r ftd) ftd

/-- The column-swap stage applied to every row of the table. -/
def column_swap_all (rows : List Holding) (ftd : List String) : List Holding :=
  rows.map (fun r => column_swap_stage r ftd)

/-- The whole remediation pass as it acts on one row: rows caught by the
column-swap stage are swapped or rotated; remaining rows with an identifier
shorter than 9 characters go through the short-CUSIP pipeline. -/
def clean_row (r : Holding) (ftd : List String) : Except String Holding :=
  if r.titleofclass ∈ ftd ∨ r.nameofissuer ∈ ftd then .ok (column_swap_stage r ftd)
  else if r.cusip.length < 9 then
    match fix_short r.cusip ftd with
    | .error e => .error e
    | .ok c => .ok { r with cusip := c }
  else .ok r

/-- Transactional behaviour of `clean_cusips`: all stages run inside one
transaction whose only `commit` is at the very end, and the `except` handler
calls `conn.rollback()` and re-raises.  The result is the database state
after the call paired with whether an exception escaped: on success the
cleaned rows are committed; on any failure the table reverts to its state
from before the call. -/
def clean_cusips_run (rows : List Holding) (ftd : List String) : List Holding × Bool :=
  match rows.mapM (fun r => clean_row r ftd) with
  | .error _ => (rows, true)
  | .ok out => (out, false)

/-! ## Progress tracker (source: `ProgressTracker`) -/

/-- The per-category progress lists (`{"processed": [...], "failed": [...]}`). -/
structure CatProgress where
  processed : List String
  failed : List String
deriving DecidableEq

/-- The tracker's JSON document: a flat pair of lists for structured data and
a dictionary keyed by period strings for individual filings.  The
`last_updated` timestamp carries no progress information and is omitted. -/
structure TrackerState where
  structured : CatProgress
  individual : List (String × CatProgress)
deriving DecidableEq

/-- The fresh structure `_load_progress` builds when no file exists. -/
def emptyTracker : TrackerState := ⟨⟨[], []⟩, []⟩

/-- Python `if item not in lst: lst.append(item)`. -/
def appendIfAbsent (x : String) (l : List String) : List String :=
  if x ∈ l then l else l ++ [x]

/-- Dictionary read: the value stored under `k`, if any. -/
def lookupKey (m : List (String × CatProgress)) (k : String) : Option CatProgress :=
  match m with
  | [] => none
  | (k', v) :: rest => if k' = k then some v else lookupKey rest k

/-- Dictionary write `m[k] = v` (keys stay unique). -/
def setKey (m : List (String × CatProgress)) (k : String) (v : CatProgress) :
    List (String × CatProgress) :=
  match m with
  | [] => [(k, v)]
  | (k', v') :: rest => if k' = k then (k, v) :: rest else (k', v') :: setKey rest k v

/-- Source: `ProgressTracker.mark_processed`.  The structured category appends
to its flat list; any other category appends under the dictionary key
`f"{year}_{quarter}"`, creating the entry first when absent.  The arguments
are kept as the strings Python would interpolate. -/
def mark_processed (s : TrackerState) (category year quarter item : String) : TrackerState :=
  if category = "structured_data" then
    { s with structured := { s.structured with
        processed := appendIfAbsent item s.structured.processed } }
  else
    let key := year ++ "_" ++ quarter
    let cur := (lookupKey s.individual key).getD ⟨[], []⟩
    { s with individual :=
        setKey s.individual key { cur with processed := appendIfAbsent item cur.processed } }

/-- Source: `ProgressTracker.mark_failed` (same shape, targeting `failed`). -/
def mark_failed (s : TrackerState) (category year quarter item : String) : TrackerState :=
  if category = "structured_data" then
    { s with structured := { s.structured with
        failed := appendIfAbsent item s.structured.failed } }
  else
    let key := year ++ "_" ++ quarter
    let cur := (lookupKey s.individual key).getD ⟨[], []⟩
    { s with individual :=
        setKey s.individual key { cur with failed := appendIfAbsent item cur.failed } }

/-- Source: `ProgressTracker.is_processed`.  Note the dictionary key it
consults is `f"{year}_Q{quarter}"`. -/
def is_processed (s : TrackerState) (category year quarter item : String) : Bool :=
  if category = "structured_data" then decide (item ∈ s.structured.processed)
  else
    match lookupKey s.individual (year ++ "_Q" ++ quarter) with
    | some cp => decide (item ∈ cp.processed)
    | none => false

/-- Source: `ProgressTracker.get_processed_count`, with the same
`f"{year}_Q{quarter}"` key and empty-list default. -/
def get_processed_count (s : TrackerState) (category year quarter : String) : Nat :=
  if category = "structured_data" then s.structured.processed.length
  else ((lookupKey s.individual (year ++ "_Q" ++ quarter)).getD ⟨[], []⟩).processed.length

/-- One mutation of the progress store. -/
inductive TrackerOp where
  | markP (category year quarter item : String)
  | markF (category year quarter item : String)

/-- Apply one mutation. -/
def applyOp (s : TrackerState) : TrackerOp → TrackerState
  | .markP c y q i => mark_processed s c y q i
  | .markF c y q i => mark_failed s c y q i

/-- Apply a whole sequence of mutations in order. -/
def applyOps (s : TrackerState) (ops : List TrackerOp) : TrackerState :=
  ops.foldl applyOp s

/-! ## JSON persistence of the tracker (source: `save_progress` /
`_load_progress`, i.e. `json.dump` then `json.load` of the same document) -/

/-- A small JSON value type covering the progress document. -/
inductive JsonV where
  | str : String → JsonV
  | arr : List JsonV → JsonV
  | obj : List (String × JsonV) → JsonV

/-- Decode a JSON array of strings. -/
def decodeStrs : List JsonV → Option (List String)
  | [] => some []
  | .str s :: rest => (decodeStrs rest).map (fun l => s :: l)
  | _ => none

/-- Encode one progress-list pair. -/
def encodeCat (c : CatProgress) : JsonV :=
  .obj [("processed", .arr (c.processed.map .str)), ("failed", .arr (c.failed.map .str))]

/-- Decode one progress-list pair. -/
def decodeCat : JsonV → Option CatProgress
  | .obj [("processed", .arr ps), ("failed", .arr fs)] =>
    match decodeStrs ps, decodeStrs fs with
    | some p, some f => some ⟨p, f⟩
    | _, _ => none
  | _ => none

/-- Encode the per-period dictionary. -/
def encodeEntries (m : List (String × CatProgress)) : List (String × JsonV) :=
  m.map (fun p => (p.1, encodeCat p.2))

/-- Decode the per-period dictionary. -/
def decodeEntries : List (String × JsonV) → Option (List (String × CatProgress))
  | [] => some []
  | (k, j) :: rest =>
    match decodeCat j, decodeEntries rest with
    | some c, some m => some ((k, c) :: m)
    | _, _ => none

/-- Serialize the progress document (`save_progress` writes exactly this
structure; the timestamp field is dropped as carrying no progress data). -/
def encodeTracker (s : TrackerState) : JsonV :=
  .obj [("structured_data", encodeCat s.structured),
        ("individual_filings", .obj (encodeEntries s.individual))]

/-- Parse the progress document back (`_load_progress` on an existing file). -/
def decodeTracker : JsonV → Option TrackerState
  | .obj [("structured_data", js), ("individual_filings", .obj je)] =>
    match decodeCat js, decodeEntries je with
    | some st, some ind => some ⟨st, ind⟩
    | _, _ => none
  | _ => none

/-! ## Per-document ingestion (source: `process_individual_filing`) -/

/-- The relational store as the ingestion worker sees it: filings keyed by a
generated surrogate id with their unique accession number, holdings carrying
the filing id they were attached to. -/
structure FilingsDB where
  filings : List (Nat × String)
  holdings : List (Nat × Holding)
  nextId : Nat
deriving DecidableEq

/-- `INSERT ... ON CONFLICT (accession_number) DO NOTHING RETURNING id`:
a duplicate accession number inserts nothing and returns no id; otherwise the
row is inserted under a fresh surrogate id, which is returned. -/
def insert_filing_or_ignore (db : FilingsDB) (acc : String) : FilingsDB × Option Nat :=
  if db.filings.any (fun p => p.2 = acc) then (db, none)
  else ({ db with filings := db.filings ++ [(db.nextId, acc)], nextId := db.nextId + 1 },
        some db.nextId)

/-- Source: the insert phase of `process_individual_filing`.  Holdings are
inserted only when `cur.fetchone()` returned an id, each row prefixed with
that id. -/
def process_individual_filing (db : FilingsDB) (acc : String) (hs : List Holding) : FilingsDB :=
  let step := insert_filing_or_ignore db acc
  match step.2 with
  | none => step.1
  | some fid => { step.1 with holdings := step.1.holdings ++ hs.map (fun h => (fid, h)) }

/-- Decidable equality for `Except`, used to evaluate the embedded
fallible functions on concrete inputs. -/
instance excDecEq {e a : Type} [DecidableEq e] [DecidableEq a] : DecidableEq (Except e a) :=
  fun x y =>
    match x, y with
    | .error u, .error v =>
      if h : u = v then isTrue (by rw [h]) else isFalse (by intro hc; cases hc; exact h rfl)
    | .ok u, .ok v =>
      if h : u = v then isTrue (by rw [h]) else isFalse (by intro hc; cases hc; exact h rfl)
    | .error _, .ok _ => isFalse (by intro hc; cases hc)
    | .ok _, .error _ => isFalse (by intro hc; cases hc)

/-! ## Lemmas -/

theorem cusip_char_facts :
    ∀ c ∈ cusipChars, cusipCharValue c = specCharValue c ∧ cusipCharValue c ≤ 35 ∧
      c.isAlphanum := by decide

theorem divmod_sum_eq_sumDigits : ∀ w : Nat, w < 100 → w / 10 + w % 10 = sumDigits w := by
  intro w hw
  rw [sumDigits]
  by_cases h : w < 10
  · simp only [h, dif_pos]
    omega
  · simp only [h, dif_neg, not_false_iff]
    rw [sumDigits]
    have h2 : w / 10 < 10 := by omega
    simp only [h2, dif_pos]
    omega

theorem digitPairSum_eq_sumDigits (i v : Nat) (hv : v ≤ 35) :
    digitPairSum i v = sumDigits (if i % 2 == 1 then 2 * v else v) := by
  unfold digitPairSum
  by_cases h : (i % 2 == 1) = true
  · simp only [h, if_pos]
    rw [Nat.mul_comm]
    exact divmod_sum_eq_sumDigits (2 * v) (by omega)
  · simp only [h, if_neg, Bool.false_eq_true, not_false_iff]
    exact divmod_sum_eq_sumDigits v (by omega)

theorem totalFrom_eq_spec :
    ∀ l : List Nat, (∀ v ∈ l, v ≤ 35) → ∀ i, totalFrom i l = specTotalFrom i l := by
  intro l
  induction l with
  | nil => intro _ _; rfl
  | cons v rest ih =>
    intro h i
    simp only [totalFrom, specTotalFrom]
    rw [digitPairSum_eq_sumDigits i v (h v (by simp)),
      ih (fun w hw => h w (by simp [hw])) (i + 1)]

theorem compute_ok (s : String) (h8 : s.length = 8) (hall : ∀ c ∈ s.data, c.isAlphanum) :
    compute_check_digit s =
      .ok (toString ((10 - (totalFrom 0 (s.data.map cusipCharValue)) % 10) % 10)) := by
  unfold compute_check_digit
  have hall' : s.data.all Char.isAlphanum = true := List.all_eq_true.mpr hall
  have hguard : (s.length != 8 || !(s.data.all Char.isAlphanum)) = false := by
    simp [h8, hall']
  rw [hguard]
  simp

theorem compute_error_of_nonalnum (s : String) (hall : ¬ ∀ c ∈ s.data, c.isAlphanum) :
    compute_check_digit s = .error "CUSIP must be length 8 and alphanumeric characters" := by
  unfold compute_check_digit
  have hguard : (s.length != 8 || !(s.data.all Char.isAlphanum)) = true := by
    simp only [Bool.or_eq_true, bne_iff_ne, Bool.not_eq_true', List.all_eq_false]
    right
    push_neg at hall
    obtain ⟨c, hcm, hc⟩ := hall
    exact ⟨c, hcm, by simpa using hc⟩
  rw [hguard]
  simp

theorem compute_error_of_len (s : String) (h8 : s.length ≠ 8) :
    compute_check_digit s = .error "CUSIP must be length 8 and alphanumeric characters" := by
  unfold compute_check_digit
  have hguard : (s.length != 8 || !(s.data.all Char.isAlphanum)) = true := by
    simp [h8]
  rw [hguard]
  simp

/-- C1: on an 8-character stem over the 36-character alphanumeric alphabet
(uppercase letters and digits), `compute_check_digit` computes exactly the
spec's checksum — digits map to their numeric value, letters to 10 plus their
alphabet position with A = 0, values at odd 0-based indices are doubled, the
decimal digits of every possibly-doubled value are summed, and the check
digit is `(10 - (total mod 10)) mod 10` as a one-character string — and in
particular it returns "0" for the input "03783310". -/
theorem C1_check_digit_matches_spec (s : String) (h8 : s.length = 8)
    (hc : ∀ c ∈ s.data, c ∈ cusipChars) :
    compute_check_digit s = .ok (check_digit_spec s) ∧
    compute_check_digit "03783310" = .ok "0" := by
  constructor
  · have hall : ∀ c ∈ s.data, c.isAlphanum :=
      fun c hm => (cusip_char_facts c (hc c hm)).2.2
    rw [compute_ok s h8 hall]
    unfold check_digit_spec
    have hle : ∀ v ∈ s.data.map cusipCharValue, v ≤ 35 := by
      intro v hv
      obtain ⟨c, hcm, rfl⟩ := List.mem_map.mp hv
      exact (cusip_char_facts c (hc c hcm)).2.1
    have hmap : s.data.map cusipCharValue = s.data.map specCharValue :=
      List.map_congr_left (fun c hcm => (cusip_char_facts c (hc c hcm)).1)
    rw [totalFrom_eq_spec _ hle 0, hmap]
  · rfl

/-- C1 witness: the theorem applied at the concrete stem "03783310". -/
theorem C1_check_digit_matches_spec_w :
    compute_check_digit "03783310" = .ok (check_digit_spec "03783310") ∧
    compute_check_digit "03783310" = .ok "0" :=
  C1_check_digit_matches_spec "03783310" (by decide) (by decide)

theorem toString_digit : ∀ n < 10, (toString n).length = 1 ∧ ∀ c ∈ (toString n).data, c.isDigit := by
  decide

theorem singleton_append_data (c : Char) (s : String) :
    (String.singleton c ++ s).data = c :: s.data := by
  rw [String.data_append]
  rfl

theorem try_prefixes_error_of_nonalnum (c : Char) (rest : List Char) (s : String)
    (ftd : List String) (hna : ¬ ∀ ch ∈ s.data, ch.isAlphanum) :
    try_prefixes (c :: rest) s ftd =
      .error "CUSIP must be length 8 and alphanumeric characters" := by
  have hna' : ¬ ∀ ch ∈ (String.singleton c ++ s).data, ch.isAlphanum := by
    rw [singleton_append_data]
    intro hforall
    exact hna (fun ch hm => hforall ch (by simp [hm]))
  simp only [try_prefixes]
  rw [compute_error_of_nonalnum _ hna']

theorem cusipChars_cons :
    cusipChars = 'A' :: "BCDEFGHIJKLMNOPQRSTUVWXYZ0123456789".data := by decide

/-- C10: `compute_check_digit` raises exactly when its input is not an
8-character alphanumeric string, and otherwise returns a one-character digit
string; and `find_valid_cusips` propagates that exception for any
7-character code containing a non-alphanumeric character, because every
padded candidate is passed to `compute_check_digit`. -/
theorem C10_check_digit_error_contract :
    (∀ s : String, (∃ e, compute_check_digit s = .error e) ↔
      (s.length ≠ 8 ∨ ¬ ∀ c ∈ s.data, c.isAlphanum)) ∧
    (∀ s : String, s.length = 8 → (∀ c ∈ s.data, c.isAlphanum) →
      ∃ d, compute_check_digit s = .ok d ∧ d.length = 1 ∧ ∀ c ∈ d.data, c.isDigit) ∧
    (∀ (s : String) (ftd : List String), s.length = 7 → ¬ (∀ c ∈ s.data, c.isAlphanum) →
      ∃ e, find_valid_cusips s ftd = .error e) := by
  refine ⟨?_, ?_, ?_⟩
  · intro s
    constructor
    · rintro ⟨e, he⟩
      by_cases h8 : s.length = 8
      · by_cases hall : ∀ c ∈ s.data, c.isAlphanum
        · rw [compute_ok s h8 hall] at he
          cases he
        · exact Or.inr hall
      · exact Or.inl h8
    · rintro (h8 | hall)
      · exact ⟨_, compute_error_of_len s h8⟩
      · exact ⟨_, compute_error_of_nonalnum s hall⟩
  · intro s h8 hall
    refine ⟨_, compute_ok s h8 hall, ?_⟩
    exact toString_digit _ (Nat.mod_lt _ (by omega))
  · intro s ftd h7 hna
    unfold find_valid_cusips
    rw [if_neg (by omega), if_pos h7, cusipChars_cons,
      try_prefixes_error_of_nonalnum _ _ _ _ hna]
    exact ⟨_, rfl⟩

/-- C10 witness: the three parts applied at concrete inputs. -/
theorem C10_check_digit_error_contract_w :
    (∃ e, find_valid_cusips "ABC-123" ["X"] = .error e) ∧
    (∃ d, compute_check_digit "1234567Z" = .ok d ∧ d.length = 1 ∧ ∀ c ∈ d.data, c.isDigit) ∧
    (∃ e, compute_check_digit "123" = .error e) :=
  ⟨C10_check_digit_error_contract.2.2 "ABC-123" ["X"] (by decide) (by decide),
   C10_check_digit_error_contract.2.1 "1234567Z" (by decide) (by decide),
   (C10_check_digit_error_contract.1 "123").mpr (by decide)⟩

theorem try_prefixes_some_mem :
    ∀ (cs : List Char) (s : String) (ftd : List String) (f : String),
      try_prefixes cs s ftd = .ok (some f) → f ∈ ftd := by
  intro cs
  induction cs with
  | nil => intro s ftd f h; simp [try_prefixes] at h
  | cons c rest ih =>
    intro s ftd f h
    simp only [try_prefixes] at h
    split at h
    · simp at h
    · split at h
      · simp only [Except.ok.injEq, Option.some.injEq] at h
        rw [← h]
        assumption
      · exact ih s ftd f h

theorem find_valid_cusips_some_mem (s : String) (ftd : List String) (f : String)
    (h : find_valid_cusips s ftd = .ok (some f)) : f ∈ ftd := by
  unfold find_valid_cusips at h
  split at h
  · split at h
    · simp at h
    · simp only [Except.ok.injEq] at h
      split at h
      · simp only [Option.some.injEq] at h
        rw [← h]
        assumption
      · simp at h
  · split at h
    · split at h
      · simp at h
      · simp only [Except.ok.injEq, Option.some.injEq] at h
        rw [← h]
        apply try_prefixes_some_mem cusipChars s ftd
        assumption
      · split at h
        · simp at h
        · simp only [Except.ok.injEq] at h
          split at h
          · simp only [Option.some.injEq] at h
            rw [← h]
            assumption
          · simp at h
    · simp at h

/-- C2: the short-code pipeline applies its repairs in strict priority order —
left-zero-pad to 9 and accept on reference-set membership; else right-zero-pad
and accept on membership; else checksum-assisted repair; else unconditional
left-zero-pad — each stage only considering codes unmatched by earlier stages;
in particular a code whose checksum-assisted repair succeeds (a reference-set
member, while both pads miss) is repaired to that result, never to the
zero-pad fallback. -/
theorem C2_short_code_priority :
    (∀ (s : String) (ftd : List String),
      zfill 9 s ∈ ftd → fix_short s ftd = .ok (zfill 9 s)) ∧
    (∀ (s : String) (ftd : List String),
      zfill 9 s ∉ ftd → pad_end 9 s ∈ ftd → fix_short s ftd = .ok (pad_end 9 s)) ∧
    (∀ (s : String) (ftd : List String) (f : String),
      zfill 9 s ∉ ftd → pad_end 9 s ∉ ftd → find_valid_cusips s ftd = .ok (some f) →
        fix_short s ftd = .ok f ∧ f ∈ ftd) ∧
    (∀ (s : String) (ftd : List String),
      zfill 9 s ∉ ftd → pad_end 9 s ∉ ftd → find_valid_cusips s ftd = .ok none →
        fix_short s ftd = .ok (zfill 9 s)) := by
  refine ⟨?_, ?_, ?_, ?_⟩
  · intro s ftd hl
    unfold fix_short
    rw [if_pos hl]
  · intro s ftd hl hr
    unfold fix_short
    rw [if_neg hl, if_pos hr]
  · intro s ftd f hl hr hc
    refine ⟨?_, find_valid_cusips_some_mem s ftd f hc⟩
    unfold fix_short
    rw [if_neg hl, if_neg hr, hc]
  · intro s ftd hl hr hc
    unfold fix_short
    rw [if_neg hl, if_neg hr, hc]

/-- C2 witness: for the 7-character code "3783310" with reference set
{"037833100"}, both pads miss and the checksum-assisted stage yields the
reference-set member "037833100", which the pipeline selects. -/
theorem C2_short_code_priority_w :
    fix_short "3783310" ["037833100"] = .ok "037833100" ∧
    "037833100" ∈ ["037833100"] :=
  C2_short_code_priority.2.2.1 "3783310" ["037833100"] "037833100"
    (by decide) (by decide) (by decide)

/-- C3: the source's right-padding block sits outside the candidate loop, so
only the leaked final loop value '9' is ever tried as a suffix.  For the
7-character code "1234567" whose only valid completion is the suffix
completion "1234567A7", the code finds nothing, while the spec's algorithm
(all 36 characters tried as suffixes) finds it. -/
theorem C3_right_pad_loop_bug :
    find_valid_cusips "1234567" ["1234567A7"] = .ok none ∧
    find_valid_cusips_spec "1234567" ["1234567A7"] = .ok (some "1234567A7") := by
  constructor <;> decide

/-- C9: an 8-character alphanumeric code that reaches the checksum-assisted
stage (both pads missed the reference set) gets its computed check digit
appended; the 9-character result is accepted exactly when it is in the
reference set, and otherwise the code falls through to the unconditional
left-zero-pad fallback. -/
theorem C9_eight_char_checksum_stage (s : String) (ftd : List String)
    (h8 : s.length = 8) (ha : ∀ c ∈ s.data, c.isAlphanum)
    (hl : zfill 9 s ∉ ftd) (hr : pad_end 9 s ∉ ftd) :
    ∃ d, compute_check_digit s = .ok d ∧
      fix_short s ftd = .ok (if s ++ d ∈ ftd then s ++ d else zfill 9 s) := by
  refine ⟨_, compute_ok s h8 ha, ?_⟩
  unfold fix_short
  rw [if_neg hl, if_neg hr]
  unfold find_valid_cusips
  rw [if_pos h8, compute_ok s h8 ha]
  by_cases hm : s ++ toString ((10 - (totalFrom 0 (s.data.map cusipCharValue)) % 10) % 10) ∈ ftd
  · simp only [hm, if_true]
  · simp only [hm, if_false]

/-- C9 witness: for "12345678" (check digit "2") with reference set
{"123456782"}, the pipeline returns "123456782". -/
theorem C9_eight_char_checksum_stage_w :
    ∃ d, compute_check_digit "12345678" = .ok d ∧
      fix_short "12345678" ["123456782"] =
        .ok (if "12345678" ++ d ∈ ["123456782"] then "12345678" ++ d
             else zfill 9 "12345678") :=
  C9_eight_char_checksum_stage "12345678" ["123456782"]
    (by decide) (by decide) (by decide) (by decide)

theorem mem_appendIfAbsent (x : String) (l : List String) : x ∈ appendIfAbsent x l := by
  unfold appendIfAbsent
  by_cases h : x ∈ l
  · rw [if_pos h]; exact h
  · rw [if_neg h]; simp

theorem lookupKey_setKey_self (m : List (String × CatProgress)) (k : String) (v : CatProgress) :
    lookupKey (setKey m k v) k = some v := by
  induction m with
  | nil => simp [setKey, lookupKey]
  | cons p rest ih =>
    unfold setKey
    by_cases h : p.1 = k
    · rw [if_pos h]
      simp [lookupKey]
    · rw [if_neg h]
      unfold lookupKey
      rw [if_neg h]
      exact ih

theorem lookupKey_setKey_ne (m : List (String × CatProgress)) (k k2 : String)
    (v : CatProgress) (hne : k ≠ k2) : lookupKey (setKey m k v) k2 = lookupKey m k2 := by
  induction m with
  | nil => simp [setKey, lookupKey, hne]
  | cons p rest ih =>
    unfold setKey
    by_cases h : p.1 = k
    · rw [if_pos h]
      unfold lookupKey
      rw [if_neg hne, if_neg (h ▸ hne)]
    · rw [if_neg h]
      unfold lookupKey
      by_cases h2 : p.1 = k2
      · rw [if_pos h2, if_pos h2]
      · rw [if_neg h2, if_neg h2]
        exact ih

theorem trackerKey_eq (y q : String) : y ++ "_" ++ ("Q" ++ q) = y ++ "_Q" ++ q := by
  apply String.ext
  simp only [String.data_append]
  simp

/-- C4 counterexample: on a fresh store, marking an individual filing
processed with year 2024 and quarter 2 and then querying `is_processed` with
the same four arguments returns false — the mark writes under key "2024_2"
while the lookup consults "2024_Q2". -/
theorem C4_mark_lookup_key_mismatch :
    is_processed (mark_processed emptyTracker "individual_filings" "2024" "2" "a.txt")
      "individual_filings" "2024" "2" "a.txt" = false := by decide

/-- C4 (amended): the mark/lookup round-trip holds for the structured
category with any year and quarter; for the individual-filings category the
mark stores under key "{year}_{quarter}" while the lookup consults
"{year}_Q{quarter}", so the round-trip holds exactly when the quarter passed
to the mark is the string "Q" followed by the quarter passed to the lookup —
the shape in which the pipeline actually calls the pair. -/
theorem C4_mark_then_lookup_amended :
    (∀ (s : TrackerState) (y q y2 q2 item : String),
      is_processed (mark_processed s "structured_data" y q item)
        "structured_data" y2 q2 item = true) ∧
    (∀ (s : TrackerState) (y q item : String),
      is_processed (mark_processed s "individual_filings" y ("Q" ++ q) item)
        "individual_filings" y q item = true) := by
  constructor
  · intro s y q y2 q2 item
    unfold mark_processed is_processed
    rw [if_pos rfl, if_pos rfl]
    simp [mem_appendIfAbsent]
  · intro s y q item
    unfold mark_processed is_processed
    rw [if_neg (by decide), if_neg (by decide)]
    rw [trackerKey_eq y q] at *
    rw [lookupKey_setKey_self]
    simp [mem_appendIfAbsent]

/-- C5 counterexample: a row whose titleofclass AND nameofissuer both hold
reference-set values is first swapped and then rotated, so it ends with
neither the plain exchange nor the claimed rotation: for the row
(cusip "COMMON STOCK", titleofclass "037833100", nameofissuer "123456789")
with both codes in the reference set, the final cusip is "123456789", not
the old titleofclass, and the final nameofissuer is "COMMON STOCK", not the
old titleofclass either. -/
theorem C5_double_match_counterexample :
    ¬ ((column_swap_stage ⟨"COMMON STOCK", "037833100", "123456789"⟩
          ["037833100", "123456789"]).cusip = "037833100" ∧
       (column_swap_stage ⟨"COMMON STOCK", "037833100", "123456789"⟩
          ["037833100", "123456789"]).titleofclass = "COMMON STOCK") ∧
    ¬ ((column_swap_stage ⟨"COMMON STOCK", "037833100", "123456789"⟩
          ["037833100", "123456789"]).cusip = "123456789" ∧
       (column_swap_stage ⟨"COMMON STOCK", "037833100", "123456789"⟩
          ["037833100", "123456789"]).nameofissuer = "037833100" ∧
       (column_swap_stage ⟨"COMMON STOCK", "037833100", "123456789"⟩
          ["037833100", "123456789"]).titleofclass = "COMMON STOCK") := by decide

/-- C5 (amended): after the column-swap stage, a row whose titleofclass is a
reference-set value and whose nameofissuer is not has cusip and titleofclass
exchanged; a row whose nameofissuer is a reference-set value and whose
titleofclass is not is rotated (cusip takes the old nameofissuer,
nameofissuer the old titleofclass, titleofclass the old cusip); a row with
BOTH fields in the reference set receives both updates in sequence, ending
with cusip = old nameofissuer, titleofclass = old titleofclass, and
nameofissuer = old cusip. -/
theorem C5_column_swap_characterization :
    ∀ (r : Holding) (ftd : List String),
      column_swap_stage r ftd =
        if r.titleofclass ∈ ftd then
          (if r.nameofissuer ∈ ftd then ⟨r.nameofissuer, r.titleofclass, r.cusip⟩
           else ⟨r.titleofclass, r.cusip, r.nameofissuer⟩)
        else
          (if r.nameofissuer ∈ ftd then ⟨r.nameofissuer, r.cusip, r.titleofclass⟩
           else r) := by
  intro r ftd
  unfold column_swap_stage swap_titleofclass rotate_nameofissuer
  by_cases h1 : r.titleofclass ∈ ftd <;> by_cases h2 : r.nameofissuer ∈ ftd <;>
    simp [h1, h2]

/-- C7: the per-document worker inserts holdings only when the
insert-or-ignore of the filing returned a fresh surrogate id; a duplicate
accession number leaves the holdings table untouched, and on a fresh insert
every holding row carries the returned id. -/
theorem C7_duplicate_filing_skips_holdings :
    ∀ (db : FilingsDB) (acc : String) (hs : List Holding),
      (process_individual_filing db acc hs).holdings =
        if db.filings.any (fun p => p.2 = acc) then db.holdings
        else db.holdings ++ hs.map (fun h => (db.nextId, h)) := by
  intro db acc hs
  unfold process_individual_filing insert_filing_or_ignore
  by_cases h : db.filings.any (fun p => decide (p.2 = acc)) = true
  · simp [h]
  · simp [h]

/-- C8 counterexample: with reference set {"037833100"}, a table holding a
swappable row and a row whose 7-character identifier "ABC-123" contains a
non-alphanumeric character makes the short-code stage raise; the run ends
with the exception propagated and the table reverted to its original state,
even though the column-swap stage had a correction to apply (the swap result
differs from the original table). -/
theorem C8_earlier_stage_not_preserved :
    clean_cusips_run
        [⟨"COMMON STOCK", "037833100", "APPLE INC"⟩, ⟨"ABC-123", "XX", "YY"⟩]
        ["037833100"] =
      ([⟨"COMMON STOCK", "037833100", "APPLE INC"⟩, ⟨"ABC-123", "XX", "YY"⟩], true) ∧
    column_swap_all
        [⟨"COMMON STOCK", "037833100", "APPLE INC"⟩, ⟨"ABC-123", "XX", "YY"⟩]
        ["037833100"] ≠
      [⟨"COMMON STOCK", "037833100", "APPLE INC"⟩, ⟨"ABC-123", "XX", "YY"⟩] := by
  constructor <;> decide

/-- C8 (amended): a failure in any reconciliation stage rolls back the WHOLE
remediation pass — `clean_cusips` commits only once, at the end, so earlier
stages' corrections are lost too and the table reverts to its pre-pass
state — and the exception is re-raised out of the pass. -/
theorem C8_failure_rolls_back_whole_pass :
    ∀ (rows : List Holding) (ftd : List String),
      (clean_cusips_run rows ftd).2 = true → clean_cusips_run rows ftd = (rows, true) := by
  intro rows ftd h
  unfold clean_cusips_run at *
  cases hm : rows.mapM (fun r => clean_row r ftd) with
  | error e => rfl
  | ok out => rw [hm] at h; simp at h

/-- C8 witness: the amended theorem applied to a concrete failing table. -/
theorem C8_failure_rolls_back_whole_pass_w :
    clean_cusips_run [⟨"ABC-123", "XX", "YY"⟩] [] = ([⟨"ABC-123", "XX", "YY"⟩], true) :=
  C8_failure_rolls_back_whole_pass [⟨"ABC-123", "XX", "YY"⟩] [] (by decide)

theorem appendIfAbsent_length_le (x : String) (l : List String) :
    l.length ≤ (appendIfAbsent x l).length := by
  unfold appendIfAbsent
  by_cases h : x ∈ l
  · rw [if_pos h]
  · rw [if_neg h]
    simp

theorem count_mono_markP (s : TrackerState) (cat y q item c y2 q2 : String) :
    get_processed_count s c y2 q2 ≤
      get_processed_count (mark_processed s cat y q item) c y2 q2 := by
  unfold mark_processed get_processed_count
  by_cases hcat : cat = "structured_data"
  · rw [if_pos hcat]
    by_cases hc : c = "structured_data"
    · rw [if_pos hc, if_pos hc]
      exact appendIfAbsent_length_le item s.structured.processed
    · rw [if_neg hc, if_neg hc]
  · rw [if_neg hcat]
    by_cases hc : c = "structured_data"
    · rw [if_pos hc, if_pos hc]
    · rw [if_neg hc, if_neg hc]
      dsimp only
      by_cases hk : (y ++ "_" ++ q) = (y2 ++ "_Q" ++ q2)
      · rw [← hk, lookupKey_setKey_self]
        cases hl : lookupKey s.individual (y ++ "_" ++ q) with
        | none => simp [hl]
        | some cp => simp [hl, appendIfAbsent_length_le]
      · rw [lookupKey_setKey_ne _ _ _ _ hk]

theorem count_mono_markF (s : TrackerState) (cat y q item c y2 q2 : String) :
    get_processed_count s c y2 q2 ≤
      get_processed_count (mark_failed s cat y q item) c y2 q2 := by
  unfold mark_failed get_processed_count
  by_cases hcat : cat = "structured_data"
  · rw [if_pos hcat]
  · rw [if_neg hcat]
    by_cases hc : c = "structured_data"
    · rw [if_pos hc, if_pos hc]
    · rw [if_neg hc, if_neg hc]
      dsimp only
      by_cases hk : (y ++ "_" ++ q) = (y2 ++ "_Q" ++ q2)
      · rw [← hk, lookupKey_setKey_self]
        cases hl : lookupKey s.individual (y ++ "_" ++ q) with
        | none => simp [hl]
        | some cp => simp [hl]
      · rw [lookupKey_setKey_ne _ _ _ _ hk]

theorem count_mono_op (s : TrackerState) (op : TrackerOp) (c y2 q2 : String) :
    get_processed_count s c y2 q2 ≤ get_processed_count (applyOp s op) c y2 q2 := by
  cases op with
  | markP cat y q item => exact count_mono_markP s cat y q item c y2 q2
  | markF cat y q item => exact count_mono_markF s cat y q item c y2 q2

theorem decodeStrs_map (l : List String) : decodeStrs (l.map JsonV.str) = some l := by
  induction l with
  | nil => rfl
  | cons x rest ih => simp [decodeStrs, ih]

theorem decodeCat_encodeCat (c : CatProgress) : decodeCat (encodeCat c) = some c := by
  show (match decodeStrs (c.processed.map JsonV.str), decodeStrs (c.failed.map JsonV.str) with
    | some p, some f => some (⟨p, f⟩ : CatProgress)
    | _, _ => none) = some c
  rw [decodeStrs_map, decodeStrs_map]

theorem decodeEntries_encodeEntries (m : List (String × CatProgress)) :
    decodeEntries (encodeEntries m) = some m := by
  induction m with
  | nil => rfl
  | cons p rest ih =>
    unfold encodeEntries at *
    simp only [List.map_cons, decodeEntries, decodeCat_encodeCat, ih]

theorem decodeTracker_encodeTracker (s : TrackerState) :
    decodeTracker (encodeTracker s) = some s := by
  show (match decodeCat (encodeCat s.structured), decodeEntries (encodeEntries s.individual) with
    | some st, some ind => some (⟨st, ind⟩ : TrackerState)
    | _, _ => none) = some s
  rw [decodeCat_encodeCat, decodeEntries_encodeEntries]

/-- C6: over any sequence of mark-processed / mark-failed mutations the
processed count, for every category and period, never decreases (no mutation
removes an item from a processed list), and serializing the progress store
and parsing it back yields the identical store, so the set of processed
items survives a save/reload round-trip. -/
theorem C6_progress_monotone_and_reload :
    (∀ (s : TrackerState) (ops : List TrackerOp) (c y q : String),
      get_processed_count s c y q ≤ get_processed_count (applyOps s ops) c y q) ∧
    (∀ s : TrackerState, decodeTracker (encodeTracker s) = some s) := by
  constructor
  · intro s ops
    induction ops generalizing s with
    | nil => intro c y q; exact Nat.le_refl _
    | cons op rest ih =>
      intro c y q
      calc get_processed_count s c y q
          ≤ get_processed_count (applyOp s op) c y q := count_mono_op s op c y q
        _ ≤ get_processed_count (applyOps (applyOp s op) rest) c y q := ih (applyOp s op) c y q
  · exact decodeTracker_encodeTracker
